import Mathlib

/-!
Shallow embedding of `src/SillyTavern-1.12.12/src/plugin-loader.js`.

The plugin loader discovers server plugins in a directory, optionally
auto-updates git checkouts, validates and initializes each plugin module,
registers routes, and returns an aggregate teardown function.

JavaScript values that the loader inspects (module exports, the `info`
object, `init`/`exit` functions) are modelled by the inductive `JVal`.
Functions carry their observable behaviour: an `init` function is described
by `InitBehavior` (an identifying tag, whether the call throws, and how many
routes it registers on the router it receives); an `exit` function is
described by `ExitBehavior` (whether the call throws synchronously, and
whether the returned promise rejects).

Mutable process state (the global `loadedPlugins` map, the `exitHooks`
array, mounted routes, and the console log) is threaded explicitly as
`LoadState`.  A thrown JavaScript exception is an `Except.error` paired with
the state at the moment of the throw, since mutations before a throw
persist.
-/

namespace PluginLoader

/-- Error values thrown by plugin code or by the runtime (property access on
`null`/`undefined` raises a TypeError). -/
inductive Err where
  | typeError
  | user (n : Nat)
deriving DecidableEq, Repr

/-- Observable behaviour of a plugin's `init` function: `tag` identifies the
function in the instrumented call log, `throws` says whether invoking it
throws, and `routes` is how many routes it registers on the router it is
given. -/
structure InitBehavior where
  tag : Nat
  throws : Option Err
  routes : Nat
deriving DecidableEq, Repr

/-- Observable behaviour of a plugin's `exit` function: `syncThrow` says the
call itself throws before returning a promise; otherwise `reject` is the
rejection reason of the returned promise (`none` = it resolves). -/
structure ExitBehavior where
  syncThrow : Option Err
  reject : Option Err
deriving DecidableEq, Repr

/-- JavaScript values inspected by the loader. -/
inductive JVal where
  | vundefined
  | vnull
  | vbool (b : Bool)
  | vnum (n : Int)
  | vstr (s : String)
  | vfunc (ib : InitBehavior) (eb : ExitBehavior)
  | vobj (fields : List (String × JVal))

/-- A plugin module's exports object. -/
abbrev Exports := List (String × JVal)

/-- JavaScript truthiness. -/
def truthy : JVal → Bool
  | .vundefined => false
  | .vnull => false
  | .vbool b => b
  | .vnum n => n != 0
  | .vstr s => s != ""
  | .vfunc _ _ => true
  | .vobj _ => true

/-- Property lookup on an object's field list (missing yields `undefined`). -/
def getProp : List (String × JVal) → String → JVal
  | [], _ => .vundefined
  | (k, v) :: rest, key => if k = key then v else getProp rest key

/-- Property access `v.key` on a value known not to be `null`/`undefined`;
primitives have no own properties here, yielding `undefined`. -/
def getField : JVal → String → JVal
  | .vobj fields, key => getProp fields key
  | _, _ => .vundefined

/-- Property access `v[key]` that, as in JavaScript, throws a TypeError when
the receiver is `null` or `undefined`. -/
def jsGet : JVal → String → Except Err JVal
  | .vundefined, _ => .error .typeError
  | .vnull, _ => .error .typeError
  | v, key => .ok (getField v key)

/-- Optional chaining `v?.key`. -/
def optGet (v : JVal) (key : String) : JVal :=
  match v with
  | .vundefined => .vundefined
  | .vnull => .vundefined
  | v => getField v key

/-- The JavaScript `a || b` operator. -/
def jsOr (a b : JVal) : JVal := if truthy a then a else b

/-- Evaluates `typeof v === 'object'` (true for objects and for `null`). -/
def isObjectType : JVal → Bool
  | .vobj _ => true
  | .vnull => true
  | _ => false

/-- Evaluates `typeof v === 'string'`. -/
def isStringType : JVal → Bool
  | .vstr _ => true
  | _ => false

/-- Evaluates `typeof v === 'function'`. -/
def isFunctionType : JVal → Bool
  | .vfunc _ _ => true
  | _ => false

/-- Extracts the string from a string value (unused fallback otherwise). -/
def asStr : JVal → String
  | .vstr s => s
  | _ => ""

/-- The effective `info` object: `plugin.info || plugin.default?.info`. -/
def effInfo (p : Exports) : JVal :=
  jsOr (getProp p "info") (optGet (getProp p "default") "info")

/-- The effective `init` function: `plugin.init || plugin.default?.init`. -/
def effInit (p : Exports) : JVal :=
  jsOr (getProp p "init") (optGet (getProp p "default") "init")

/-- The effective `exit` function: `plugin.exit || plugin.default?.exit`. -/
def effExit (p : Exports) : JVal :=
  jsOr (getProp p "exit") (optGet (getProp p "default") "exit")

/-- Characters allowed by the plugin id regular expression `[a-z0-9_-]`. -/
def isIdChar (c : Char) : Bool :=
  (('a' ≤ c) && (c ≤ 'z')) || (('0' ≤ c) && (c ≤ '9')) || c = '_' || c = '-'

/-- `isValidPluginID`: the id matches `/^[a-z0-9_-]+$/`, i.e. it is nonempty
and every character is lowercase alphanumeric, hyphen, or underscore. -/
def isValidPluginID (id : String) : Bool :=
  !id.isEmpty && id.toList.all isIdChar

/-- Console messages emitted by the loader, used to observe which rejection
or progress path was taken. -/
inductive LogMsg where
  | infoNotFound
  | missingField (field : String)
  | noInitFunction
  | invalidId (id : String)
  | duplicateId (id : String)
  | initializingFrom (path : String)
  | loadFailed (path : String)
  | countLoaded (n : Nat)
deriving DecidableEq, Repr

/-- The loader's mutable state: the global `loadedPlugins` map (insertion
order preserved), mounted route namespaces, an instrumentation log of which
`init` functions were invoked (by tag), the `exitHooks` array, and the
console log. -/
structure LoadState where
  loadedPlugins : List (String × Exports)
  mounted : List String
  initCalls : List Nat
  exitHooks : List ExitBehavior
  log : List LogMsg

/-- The state at process start: nothing loaded. -/
def emptyState : LoadState := ⟨[], [], [], [], []⟩

/-- `loadedPlugins.has(id)`. -/
def hasId (m : List (String × Exports)) (id : String) : Bool :=
  m.any (fun e => e.1 == id)

/-- Number of records stored for a given id. -/
def countId (m : List (String × Exports)) (id : String) : Nat :=
  m.countP (fun e => e.1 == id)

/-- Outcome of the validation portion of `initPlugin` (its lines up to the
plugin-id grammar check): a thrown exception, a logged rejection, or success
carrying the plugin id and the behaviour of the accepted `init` function. -/
inductive VRes where
  | vthrow (e : Err)
  | rejected (m : LogMsg)
  | passed (id : String) (ib : InitBehavior)

/-- The field loop of `initPlugin`: for each required field check
`typeof info[field] !== 'string'`; accessing a field of `null` throws. -/
def checkFields (info : JVal) : List String → Except Err (Option LogMsg)
  | [] => .ok none
  | f :: rest =>
    match jsGet info f with
    | .error e => .error e
    | .ok v =>
      if !isStringType v then .ok (some (.missingField f))
      else checkFields info rest

/-- Validation prefix of `initPlugin`: resolve `info` via the default-export
fallback, require `typeof info === 'object'`, require `id`, `name`,
`description` to be strings, require an `init` function, and require the id
to match the plugin-id grammar. -/
def validatePhase (p : Exports) : VRes :=
  if !isObjectType (effInfo p) then .rejected .infoNotFound
  else
    match checkFields (effInfo p) ["id", "name", "description"] with
    | .error e => .vthrow e
    | .ok (some m) => .rejected m
    | .ok none =>
      match effInit p with
      | .vfunc ib _ =>
        if !isValidPluginID (asStr (getField (effInfo p) "id")) then
          .rejected (.invalidId (asStr (getField (effInfo p) "id")))
        else .passed (asStr (getField (effInfo p) "id")) ib
      | _ => .rejected .noInitFunction

/-- `initPlugin`: after validation, reject duplicate ids, invoke
`init(router)` (recording the call and propagating a throw), store the
plugin in `loadedPlugins`, mount `/api/plugins/[id]` when at least one route
was registered, and collect the `exit` hook when one is exported. -/
def initPlugin (p : Exports) (st : LoadState) : LoadState × Except Err Bool :=
  match validatePhase p with
  | .vthrow e => (st, .error e)
  | .rejected m => ({ st with log := st.log ++ [m] }, .ok false)
  | .passed id ib =>
    if hasId st.loadedPlugins id then
      ({ st with log := st.log ++ [.duplicateId id] }, .ok false)
    else
      let st1 := { st with initCalls := st.initCalls ++ [ib.tag] }
      match ib.throws with
      | some e => (st1, .error e)
      | none =>
        let st2 := { st1 with loadedPlugins := st1.loadedPlugins ++ [(id, p)] }
        let st3 :=
          if 0 < ib.routes then
            { st2 with mounted := st2.mounted ++ ["/api/plugins/" ++ id] }
          else st2
        let st4 :=
          match effExit p with
          | .vfunc _ eb => { st3 with exitHooks := st3.exitHooks ++ [eb] }
          | _ => st3
        (st4, .ok true)

/-- On-disk behaviour of one candidate entry file: whether the file exists
(consulted by `fs.existsSync` during index probing), and the outcome of
dynamically importing its path (a missing or broken file makes the import
throw). -/
structure FileBehavior where
  present : Bool
  imp : Except Err Exports

/-- `loadFromFile`: import the module (a throw is caught, logged, and turns
into `false`), log the initialization, and run `initPlugin`, whose thrown
errors are caught by the same handler. -/
def loadFromFile (path : String) (fb : FileBehavior) (st : LoadState) :
    LoadState × Bool :=
  match fb.imp with
  | .error _ => ({ st with log := st.log ++ [.loadFailed path] }, false)
  | .ok p =>
    let st1 := { st with log := st.log ++ [.initializingFrom path] }
    match initPlugin p st1 with
    | (st2, .ok b) => (st2, b)
    | (st2, .error _) => ({ st2 with log := st2.log ++ [.loadFailed path] }, false)

/-- Result of reading and parsing a directory's `package.json`:
the parse may throw (caught and logged), the `main` field may be falsy, or
it declares a relative entry path with that file's import behaviour. -/
inductive PkgParse where
  | parseError
  | noMain
  | mainEntry (mainPath : String) (fb : FileBehavior)

/-- `loadFromPackage`: parse `package.json`; when it declares a `main`
entry, load it via `loadFromFile` (no existence check on the entry); parse
failures are caught and logged; otherwise report `false`. -/
def loadFromPackage (dirPath : String) (pk : PkgParse) (st : LoadState) :
    LoadState × Bool :=
  match pk with
  | .parseError => ({ st with log := st.log ++ [.loadFailed (dirPath ++ "/package.json")] }, false)
  | .noMain => (st, false)
  | .mainEntry mainPath fb => loadFromFile (dirPath ++ "/" ++ mainPath) fb st

/-- Contents of a candidate plugin directory: the number of entries it
contains, its `package.json` (when present, with its parse outcome), and the
existence/import behaviour of the three conventional index files. -/
structure DirNode where
  entryCount : Nat
  pkg : Option PkgParse
  idxJs : FileBehavior
  idxCjs : FileBehavior
  idxMjs : FileBehavior

/-- The index-file loop of `loadFromDirectory`: probe candidates in order,
load the first existing one; when that load fails, keep probing. -/
def probeIndex (dirPath : String) (candidates : List (String × FileBehavior))
    (st : LoadState) : LoadState :=
  match candidates with
  | [] => st
  | (name, fb) :: rest =>
    if fb.present then
      match loadFromFile (dirPath ++ "/" ++ name) fb st with
      | (st1, true) => st1
      | (st1, false) => probeIndex dirPath rest st1
    else probeIndex dirPath rest st

/-- `loadFromDirectory`: skip empty directories; try `package.json` first
and stop when that load reports success; otherwise probe `index.js`,
`index.cjs`, `index.mjs` in order. -/
def loadFromDirectory (dirPath : String) (d : DirNode) (st : LoadState) :
    LoadState :=
  if d.entryCount = 0 then st
  else
    let afterPkg :=
      match d.pkg with
      | some pk => loadFromPackage dirPath pk st
      | none => (st, false)
    match afterPkg with
    | (st1, true) => st1
    | (st1, false) =>
      probeIndex dirPath
        [("index.js", d.idxJs), ("index.cjs", d.idxCjs), ("index.mjs", d.idxMjs)] st1

/-- The index of the last dot in a name, when there is one. -/
def lastDotIdx : List Char → Option Nat
  | [] => none
  | c :: rest =>
    match lastDotIdx rest with
    | some i => some (i + 1)
    | none => if c = '.' then some 0 else none

/-- `path.extname` on a bare entry name: the suffix from the last dot,
except that a leading dot (a dotfile) does not start an extension. -/
def extname (name : String) : String :=
  let cs := name.toList
  match lastDotIdx cs with
  | none => ""
  | some 0 => ""
  | some i => String.mk (cs.drop i)

/-- `isCommonJS`: the file's extension is `.js` or `.cjs`. -/
def isCommonJS (file : String) : Bool :=
  extname file = ".js" || extname file = ".cjs"

/-- `isESModule`: the file's extension is `.mjs`. -/
def isESModule (file : String) : Bool :=
  extname file = ".mjs"

/-- Steps of the git interaction in `updatePlugins`, in program order; a
directory's update may throw at any one of them. -/
inductive GitStep where
  | checkIsRepo
  | fetch
  | revHead
  | revUpstream
  | logRange
  | pull
deriving DecidableEq, Repr

/-- Version-control state of one plugin directory, as observed through the
external git collaborator: whether `checkIsRepo` reports a repository, the
current and upstream commits, `behind` = the number of commits in the range
`(HEAD, upstream]` reported by `log`, the step (if any) at which the
collaborator throws, and instrumentation flags recording whether `fetch`
and `pull` were ever invoked. -/
structure Repo where
  isRepoChk : Bool
  head : Nat
  upstream : Nat
  behind : Nat
  failAt : Option GitStep
  fetchCalled : Bool
  pullCalled : Bool
deriving DecidableEq, Repr

/-- One iteration of the `updatePlugins` loop body for a tracked directory:
skip non-repositories, fetch, compare `HEAD` to the upstream tracking
branch by listing the commit range, and pull only when the range is
non-empty; every thrown step is caught, leaving the directory in whatever
state it reached.  Modelled from the spec: the external collaborator's
`pull` performs a fast-forward merge, so a completed pull moves `HEAD` to
the upstream commit and empties the range. -/
def updateOne (r : Repo) : Repo :=
  if r.failAt = some .checkIsRepo then r
  else if !r.isRepoChk then r
  else
    let r1 := { r with fetchCalled := true }
    if r.failAt = some .fetch then r1
    else if r.failAt = some .revHead then r1
    else if r.failAt = some .revUpstream then r1
    else if r.failAt = some .logRange then r1
    else if r1.behind = 0 then r1
    else
      let r2 := { r1 with pullCalled := true }
      if r.failAt = some .pull then r2
      else { r2 with head := r2.upstream, behind := 0 }

/-- A top-level entry of the plugins directory: a subdirectory (with its
contents and its version-control state) or a plain file. -/
inductive Node where
  | dir (d : DirNode) (repo : Repo)
  | file (fb : FileBehavior)

/-- Whether `fs.statSync(entry).isDirectory()` holds. -/
def isDirEntry : Node → Bool
  | .dir _ _ => true
  | .file _ => false

/-- The plugins root directory: its entries in directory-listing order. -/
structure RootFS where
  entries : List (String × Node)

/-- Applies the update loop body to a directory entry. -/
def updateEntry : String × Node → String × Node
  | (name, .dir d r) => (name, .dir d (updateOne r))
  | e => e

/-- `file.startsWith('.')`: the name's first character is a dot. -/
def startsWithDot (name : String) : Bool :=
  match name.toList with
  | [] => false
  | c :: _ => c = '.'

/-- The filter of the update phase: non-hidden names (no leading dot) that
are directories. -/
def isUpdateTarget (e : String × Node) : Bool :=
  !startsWithDot e.1 && isDirEntry e.2

/-- `updatePlugins`: when auto-update is enabled, consider the non-hidden
subdirectories; when there are none, or git is not installed, do nothing;
otherwise run the update loop body on each of them, leaving every other
entry untouched. -/
def updatePlugins (autoUpdate gitInstalled : Bool) (fs : RootFS) : RootFS :=
  if !autoUpdate then fs
  else if (fs.entries.filter isUpdateTarget).length = 0 then fs
  else if !gitInstalled then fs
  else ⟨fs.entries.map (fun e => if isUpdateTarget e then updateEntry e else e)⟩

/-- Startup configuration read once: the `enableServerPlugins` and
`enableServerPluginsAutoUpdate` flags, and whether the `git` command-line
tool exists on the host. -/
structure Config where
  enableServerPlugins : Bool
  enableServerPluginsAutoUpdate : Bool
  gitInstalled : Bool

/-- One iteration of the `loadPlugins` loop: directories go through
`loadFromDirectory`; files are loaded only when their extension marks a
CommonJS or ES module; anything else is skipped. -/
def loadEntry (rootPath : String) (e : String × Node) (st : LoadState) :
    LoadState :=
  match e with
  | (name, .dir d _) => loadFromDirectory (rootPath ++ "/" ++ name) d st
  | (name, .file fb) =>
    if !isCommonJS name && !isESModule name then st
    else (loadFromFile (rootPath ++ "/" ++ name) fb st).1

/-- The `loadPlugins` loop over all top-level entries. -/
def loadEntries (rootPath : String) (es : List (String × Node))
    (st : LoadState) : LoadState :=
  match es with
  | [] => st
  | e :: rest => loadEntries rootPath rest (loadEntry rootPath e st)

/-- `loadPlugins`: return the no-op teardown when the feature flag is off,
when the plugins directory does not exist (`root = none`), or when it is
empty; otherwise run the update phase, load every entry, log the loaded
count, and return the final state together with the teardown closure's
captured `exitHooks` array. -/
def loadPlugins (cfg : Config) (root : Option RootFS) (rootPath : String) :
    LoadState × List ExitBehavior :=
  if !cfg.enableServerPlugins then (emptyState, [])
  else
    match root with
    | none => (emptyState, [])
    | some fs =>
      if fs.entries.length = 0 then (emptyState, [])
      else
        let fs1 := updatePlugins cfg.enableServerPluginsAutoUpdate
          cfg.gitInstalled fs
        let final := loadEntries rootPath fs1.entries emptyState
        let final2 :=
          if 0 < final.loadedPlugins.length then
            { final with log := final.log ++ [.countLoaded final.loadedPlugins.length] }
          else final
        (final2, final2.exitHooks)

/-- The `exitHooks.map(exitFn => exitFn())` step of the returned teardown:
hooks are invoked left to right; a synchronously throwing hook aborts the
map (hooks after it are never invoked) and the throw propagates; otherwise
the list of promise outcomes is produced. -/
def invokeHooks : List ExitBehavior → Except Err (List (Option Err))
  | [] => .ok []
  | h :: rest =>
    match h.syncThrow with
    | some e => .error e
    | none =>
      match invokeHooks rest with
      | .error e => .error e
      | .ok others => .ok (h.reject :: others)

/-- `Promise.all` over already-started promises: resolves when every
promise resolves, and otherwise rejects with the reason of the first
rejecting promise alone. -/
def promiseAll : List (Option Err) → Except Err Unit
  | [] => .ok ()
  | some e :: _ => .error e
  | none :: rest => promiseAll rest

/-- The aggregate teardown `() => Promise.all(exitHooks.map(fn => fn()))`. -/
def runTeardown (hooks : List ExitBehavior) : Except Err Unit :=
  match invokeHooks hooks with
  | .error e => .error e
  | .ok results => promiseAll results

/-- How many hooks the teardown actually invokes: all of them up to and
including the first synchronously throwing one. -/
def invokedCount : List ExitBehavior → Nat
  | [] => 0
  | h :: rest =>
    match h.syncThrow with
    | some _ => 1
    | none => 1 + invokedCount rest

/-- Spec-side predicate: the value is an info object whose `id`, `name`,
and `description` fields are all present strings. -/
def goodInfoObject : JVal → Bool
  | .vobj fields =>
    isStringType (getProp fields "id") && isStringType (getProp fields "name")
      && isStringType (getProp fields "description")
  | _ => false

/-- Spec-side predicate for C3: the module exports (directly or via the
default-export wrapper, with the code's fallback semantics) a well-formed
info object, a function as `init`, and an id matching the identifier
grammar. -/
def goodModuleExports (p : Exports) : Bool :=
  goodInfoObject (effInfo p) && isFunctionType (effInit p)
    && isValidPluginID (asStr (getField (effInfo p) "id"))

/-- Three collected shutdown hooks of which the first throws synchronously
and the other two succeed. -/
def c1Hooks : List ExitBehavior :=
  [⟨some (.user 7), none⟩, ⟨none, none⟩, ⟨none, none⟩]

/-- Two shutdown hooks, none throwing synchronously, the first rejecting. -/
def c1wHooks : List ExitBehavior :=
  [⟨none, some (.user 1)⟩, ⟨none, none⟩]

/-- A well-formed info object with id `a`. -/
def infoA : JVal :=
  .vobj [("id", .vstr "a"), ("name", .vstr "n"), ("description", .vstr "d")]

/-- A valid module with id `a` whose init succeeds and registers no route. -/
def modA : Exports := [("info", infoA), ("init", .vfunc ⟨1, none, 0⟩ ⟨none, none⟩)]

/-- A second valid module also declaring id `a`. -/
def modB : Exports := [("info", infoA), ("init", .vfunc ⟨2, none, 1⟩ ⟨none, none⟩)]

/-- A module exporting a default wrapper whose `info` is `null`: the `||`
fallback makes the effective info `null`, which passes the
`typeof info === 'object'` check. -/
def modNullInfo : Exports := [("default", .vobj [("info", .vnull)])]

/-- A valid module with id `t` whose init throws when invoked. -/
def modT : Exports :=
  [("info", .vobj [("id", .vstr "t"), ("name", .vstr "n"), ("description", .vstr "d")]),
   ("init", .vfunc ⟨5, some (.user 9), 0⟩ ⟨none, none⟩),
   ("exit", .vfunc ⟨0, none, 0⟩ ⟨none, none⟩)]

/-- A valid module with id `idx`, as the contents of a conventional index
file. -/
def idxExports : Exports :=
  [("info", .vobj [("id", .vstr "idx"), ("name", .vstr "n"), ("description", .vstr "d")]),
   ("init", .vfunc ⟨3, none, 0⟩ ⟨none, none⟩)]

/-- A directory whose manifest declares a `main` file that exists but
whose dynamic load throws, and which also contains a loadable
`index.js`. -/
def c6Dir : DirNode :=
  { entryCount := 2
  , pkg := some (.mainEntry "entry.js" ⟨true, .error (.user 1)⟩)
  , idxJs := ⟨true, .ok idxExports⟩
  , idxCjs := ⟨false, .error .typeError⟩
  , idxMjs := ⟨false, .error .typeError⟩ }

/-- A directory whose manifest declares a `main` file that loads
successfully, next to an existing `index.js`. -/
def c6wDir : DirNode :=
  { entryCount := 2
  , pkg := some (.mainEntry "entry.js" ⟨true, .ok modA⟩)
  , idxJs := ⟨true, .ok idxExports⟩
  , idxCjs := ⟨false, .error .typeError⟩
  , idxMjs := ⟨false, .error .typeError⟩ }

/-- A tracked repository two commits behind its upstream, with a healthy
collaborator. -/
def wRepo : Repo :=
  { isRepoChk := true, head := 5, upstream := 9, behind := 2
  , failAt := none, fetchCalled := false, pullCalled := false }

/-- Contents of a hidden (dot-named) plugin directory holding a loadable
`index.js`. -/
def hiddenDir : DirNode :=
  { entryCount := 1
  , pkg := none
  , idxJs := ⟨true, .ok idxExports⟩
  , idxCjs := ⟨false, .error .typeError⟩
  , idxMjs := ⟨false, .error .typeError⟩ }

/-- The hidden directory as a top-level entry, backed by a repository that
is behind its upstream. -/
def hiddenDirNode : Node := .dir hiddenDir wRepo

/-- A plugins root whose only entry is the hidden directory. -/
def hiddenFS : RootFS := ⟨[(".hidden", hiddenDirNode)]⟩

/-- Configuration with the server-plugins feature flag off. -/
def cfgOff : Config :=
  { enableServerPlugins := false, enableServerPluginsAutoUpdate := true
  , gitInstalled := true }

/-- Configuration with everything enabled. -/
def cfgOn : Config :=
  { enableServerPlugins := true, enableServerPluginsAutoUpdate := true
  , gitInstalled := true }

/-! ## Teardown lemmas -/

/-- When no hook throws synchronously, the map invokes every hook and
collects every promise outcome. -/
theorem invokeHooks_of_noSync (hooks : List ExitBehavior)
    (h : ∀ x ∈ hooks, x.syncThrow = none) :
    invokeHooks hooks = .ok (hooks.map (fun x => x.reject)) := by
  induction hooks with
  | nil => rfl
  | cons a rest ih =>
    have ha : a.syncThrow = none := h a (List.mem_cons_self a rest)
    have hr := ih (fun x hx => h x (List.mem_cons_of_mem a hx))
    simp [invokeHooks, ha, hr]

/-- When no hook throws synchronously, every hook is counted as invoked. -/
theorem invokedCount_of_noSync (hooks : List ExitBehavior)
    (h : ∀ x ∈ hooks, x.syncThrow = none) :
    invokedCount hooks = hooks.length := by
  induction hooks with
  | nil => rfl
  | cons a rest ih =>
    have ha : a.syncThrow = none := h a (List.mem_cons_self a rest)
    have hr := ih (fun x hx => h x (List.mem_cons_of_mem a hx))
    simp [invokedCount, ha, hr, Nat.add_comm]

/-- `Promise.all` resolves exactly when every promise resolves. -/
theorem promiseAll_ok_iff (rs : List (Option Err)) :
    promiseAll rs = .ok () ↔ ∀ r ∈ rs, r = none := by
  induction rs with
  | nil => simp [promiseAll]
  | cons a rest ih =>
    cases a with
    | some e => simp [promiseAll]
    | none => simp [promiseAll, ih]

/-- A `Promise.all` rejection reason is the outcome of one of the
promises. -/
theorem promiseAll_error_mem (rs : List (Option Err)) (e : Err)
    (h : promiseAll rs = .error e) : some e ∈ rs := by
  induction rs with
  | nil => simp [promiseAll] at h
  | cons a rest ih =>
    cases a with
    | some e2 =>
      simp [promiseAll] at h
      simp [h]
    | none =>
      exact List.mem_cons_of_mem _ (ih (by simpa [promiseAll] using h))

/-- C1 (counterexample).  Three loaded extensions, exactly one of whose
shutdown hooks throws; contrary to the claim, the teardown invokes only
one of the three hooks (the throwing hook aborts the `map` before the
other two run), and it propagates that hook's single error rather than an
aggregate failure set. -/
theorem c1_counterexample :
    c1Hooks.length = 3 ∧
    c1Hooks.countP (fun h => h.syncThrow.isSome || h.reject.isSome) = 1 ∧
    ¬ invokedCount c1Hooks = c1Hooks.length ∧
    runTeardown c1Hooks = .error (.user 7) := by
  refine ⟨rfl, by decide, by decide, rfl⟩

/-- C1 (amended).  The teardown invokes the collected hooks in order up to
and including the first synchronously throwing one; when every failure is
an asynchronous rejection, all hooks are invoked, the teardown succeeds
exactly when every hook succeeds, and on failure it propagates the single
rejection reason of one failing hook, not an aggregate error listing all
failing hooks by id. -/
theorem c1_teardown_behavior (hooks : List ExitBehavior)
    (hns : ∀ x ∈ hooks, x.syncThrow = none) :
    invokedCount hooks = hooks.length ∧
    (runTeardown hooks = .ok () ↔ ∀ x ∈ hooks, x.reject = none) ∧
    (∀ e, runTeardown hooks = .error e → ∃ x ∈ hooks, x.reject = some e) := by
  have hinv := invokeHooks_of_noSync hooks hns
  have hrt : runTeardown hooks = promiseAll (hooks.map (fun x => x.reject)) := by
    simp [runTeardown, hinv]
  refine ⟨invokedCount_of_noSync hooks hns, ?_, ?_⟩
  · rw [hrt, promiseAll_ok_iff]
    constructor
    · intro h x hx
      exact h x.reject (List.mem_map_of_mem _ hx)
    · intro h r hr
      obtain ⟨x, hx, rfl⟩ := List.mem_map.mp hr
      exact h x hx
  · intro e he
    rw [hrt] at he
    obtain ⟨x, hx, hxr⟩ := List.mem_map.mp (promiseAll_error_mem _ e he)
    exact ⟨x, hx, hxr⟩

/-- C1 (witness): the amended behaviour at a concrete pair of hooks. -/
theorem c1_teardown_behavior_witness :
    invokedCount c1wHooks = c1wHooks.length ∧
    (runTeardown c1wHooks = .ok () ↔ ∀ x ∈ c1wHooks, x.reject = none) ∧
    (∀ e, runTeardown c1wHooks = .error e →
      ∃ x ∈ c1wHooks, x.reject = some e) :=
  c1_teardown_behavior c1wHooks (by decide)

/-! ## Orchestrator totality (C2) -/

/-- C2.  The orchestrator always completes and returns the collected hooks
as a callable teardown; the loop processes the remaining candidates after
each candidate regardless of that candidate's outcome; and a candidate
whose import throws is caught at per-candidate scope and converted into a
logged failure. -/
theorem c2_no_single_failure_fatal :
    (∀ cfg root rootPath,
        (loadPlugins cfg root rootPath).2
          = (loadPlugins cfg root rootPath).1.exitHooks) ∧
    (∀ rootPath e es st,
        loadEntries rootPath (e :: es) st
          = loadEntries rootPath es (loadEntry rootPath e st)) ∧
    (∀ path e fb st, fb.imp = .error e →
        loadFromFile path fb st
          = ({ st with log := st.log ++ [.loadFailed path] }, false)) := by
  refine ⟨?_, ?_, ?_⟩
  · intro cfg root rootPath
    unfold loadPlugins
    cases h : cfg.enableServerPlugins with
    | false => rfl
    | true =>
      cases root with
      | none => rfl
      | some fs =>
        by_cases hlen : fs.entries.length = 0
        · simp [hlen, emptyState]
        · simp [hlen, emptyState]
  · intro rootPath e es st
    rfl
  · intro path e fb st h
    simp [loadFromFile, h]

/-- C2 (witness): a concrete import failure is caught and logged. -/
theorem c2_witness :
    loadFromFile "p" ⟨true, .error (.user 3)⟩ emptyState
      = ({ emptyState with log := emptyState.log ++ [.loadFailed "p"] }, false) :=
  c2_no_single_failure_fatal.2.2 "p" (.user 3) ⟨true, .error (.user 3)⟩
    emptyState rfl

/-! ## Descriptor validation (C3) -/

/-- Descriptor validation succeeds — `initPlugin` proceeds past the
validation prefix — exactly when the module's effective exports (direct or
default-wrapped, with the code's `||` fallback) provide an info object
whose `id`, `name`, `description` are all strings, a function as `init`,
and an id matching `^[a-z0-9_-]+$`. -/
theorem validatePhase_passed_iff (p : Exports) :
    (∃ id ib, validatePhase p = VRes.passed id ib)
      ↔ goodModuleExports p = true := by
  unfold validatePhase goodModuleExports
  cases hinfo : effInfo p with
  | vobj fields =>
    simp only [isObjectType, goodInfoObject, Bool.not_true, Bool.false_eq_true,
      if_false, checkFields, jsGet, getField]
    cases h1 : isStringType (getProp fields "id") with
    | false => simp [h1]
    | true =>
      cases h2 : isStringType (getProp fields "name") with
      | false => simp [h1, h2]
      | true =>
        cases h3 : isStringType (getProp fields "description") with
        | false => simp [h1, h2, h3]
        | true =>
          simp only [h1, h2, h3, Bool.not_true, Bool.false_eq_true, if_false,
            Bool.true_and]
          cases hinit : effInit p with
          | vfunc ib eb =>
            simp only [isFunctionType, Bool.true_and]
            cases hvalid : isValidPluginID (asStr (getProp fields "id")) with
            | false => simp [hvalid]
            | true => simp [hvalid]
          | vundefined => simp [isFunctionType]
          | vnull => simp [isFunctionType]
          | vbool b => simp [isFunctionType]
          | vnum n => simp [isFunctionType]
          | vstr s => simp [isFunctionType]
          | vobj fs2 => simp [isFunctionType]
  | vnull =>
    simp [isObjectType, goodInfoObject, checkFields, jsGet]
  | vundefined => simp [isObjectType, goodInfoObject]
  | vbool b => simp [isObjectType, goodInfoObject]
  | vnum n => simp [isObjectType, goodInfoObject]
  | vstr s => simp [isObjectType, goodInfoObject]
  | vfunc ib eb => simp [isObjectType, goodInfoObject]

/-- C3 (counterexample).  A module exporting `default.info = null` has
ill-formed exports and its validation does not succeed; but contrary to
the claim, the failure is none of the four named rejections: `null` passes
the `typeof info === 'object'` check, the field access `info['id']` then
throws a TypeError, and `loadFromFile` catches it as a generic load
failure. -/
theorem c3_counterexample :
    goodModuleExports modNullInfo = false ∧
    (¬ ∃ id ib, validatePhase modNullInfo = VRes.passed id ib) ∧
    validatePhase modNullInfo = VRes.vthrow Err.typeError ∧
    (∀ m, ¬ validatePhase modNullInfo = VRes.rejected m) ∧
    (loadFromFile "n.js" ⟨true, .ok modNullInfo⟩ emptyState).1.log
        = [.initializingFrom "n.js", .loadFailed "n.js"] := by
  refine ⟨rfl, ?_, rfl, ?_, rfl⟩
  · rintro ⟨id, ib, h⟩
    rw [show validatePhase modNullInfo = VRes.vthrow Err.typeError from rfl] at h
    exact VRes.noConfusion h
  · intro m h
    rw [show validatePhase modNullInfo = VRes.vthrow Err.typeError from rfl] at h
    exact VRes.noConfusion h

/-- C3 (amended).  Validation succeeds iff the effective exports provide a
well-formed info object, a function as `init`, and a grammar-conforming
id.  Otherwise it fails, and the failure is the corresponding rejection —
missing descriptor when the effective info is not of object type, a
missing-field rejection naming a genuinely non-string required field, a
missing-init rejection, or an invalid-identifier rejection — except that
an effective info of `null` passes the `typeof`-object check and the
subsequent field access throws a TypeError (caught upstream as a generic
load failure) instead of producing one of the named rejections. -/
theorem c3_validate_corrected (p : Exports) :
    ((∃ id ib, validatePhase p = VRes.passed id ib)
        ↔ goodModuleExports p = true) ∧
    (isObjectType (effInfo p) = false →
        validatePhase p = VRes.rejected .infoNotFound) ∧
    (effInfo p = .vnull → validatePhase p = VRes.vthrow Err.typeError) ∧
    (∀ fields, effInfo p = .vobj fields →
      (goodInfoObject (.vobj fields) = false →
        ∃ f, f ∈ ["id", "name", "description"] ∧
          isStringType (getProp fields f) = false ∧
          validatePhase p = VRes.rejected (.missingField f)) ∧
      (goodInfoObject (.vobj fields) = true →
        isFunctionType (effInit p) = false →
        validatePhase p = VRes.rejected .noInitFunction) ∧
      (goodInfoObject (.vobj fields) = true →
        isValidPluginID (asStr (getProp fields "id")) = false →
        ∀ ib eb, effInit p = .vfunc ib eb →
          validatePhase p
            = VRes.rejected (.invalidId (asStr (getProp fields "id"))))) := by
  refine ⟨validatePhase_passed_iff p, ?_, ?_, ?_⟩
  · intro h
    simp [validatePhase, h]
  · intro h
    simp [validatePhase, h, isObjectType, checkFields, jsGet]
  · intro fields hinfo
    refine ⟨?_, ?_, ?_⟩
    · intro hbad
      unfold validatePhase
      rw [hinfo]
      simp only [isObjectType, Bool.not_true, Bool.false_eq_true, if_false,
        checkFields, jsGet, getField]
      cases h1 : isStringType (getProp fields "id") with
      | false => exact ⟨"id", by simp, h1, by simp [h1]⟩
      | true =>
        cases h2 : isStringType (getProp fields "name") with
        | false => exact ⟨"name", by simp, h2, by simp [h1, h2]⟩
        | true =>
          cases h3 : isStringType (getProp fields "description") with
          | false => exact ⟨"description", by simp, h3, by simp [h1, h2, h3]⟩
          | true => simp [goodInfoObject, h1, h2, h3] at hbad
    · intro hgood hnofun
      unfold validatePhase
      rw [hinfo]
      rw [show goodInfoObject (JVal.vobj fields)
            = (isStringType (getProp fields "id")
               && isStringType (getProp fields "name")
               && isStringType (getProp fields "description")) from rfl] at hgood
      rw [Bool.and_eq_true, Bool.and_eq_true] at hgood
      obtain ⟨⟨h1, h2⟩, h3⟩ := hgood
      simp only [isObjectType, Bool.not_true, Bool.false_eq_true, if_false,
        checkFields, jsGet, getField, h1, h2, h3]
      cases hinit : effInit p with
      | vfunc ib eb =>
        rw [hinit] at hnofun
        simp [isFunctionType] at hnofun
      | vundefined => simp
      | vnull => simp
      | vbool b => simp
      | vnum n => simp
      | vstr s => simp
      | vobj fs2 => simp
    · intro hgood hbadid ib eb hinit
      unfold validatePhase
      rw [hinfo]
      rw [show goodInfoObject (JVal.vobj fields)
            = (isStringType (getProp fields "id")
               && isStringType (getProp fields "name")
               && isStringType (getProp fields "description")) from rfl] at hgood
      rw [Bool.and_eq_true, Bool.and_eq_true] at hgood
      obtain ⟨⟨h1, h2⟩, h3⟩ := hgood
      simp only [isObjectType, Bool.not_true, Bool.false_eq_true, if_false,
        checkFields, jsGet, getField, h1, h2, h3, hinit]
      simp [hbadid]

/-- C3 (witness): the corrected taxonomy at concrete modules — the
null-info module throws, and the success equivalence holds at a valid
module. -/
theorem c3_corrected_witness :
    validatePhase modNullInfo = VRes.vthrow Err.typeError ∧
    ((∃ id ib, validatePhase modA = VRes.passed id ib)
        ↔ goodModuleExports modA = true) :=
  ⟨(c3_validate_corrected modNullInfo).2.2.1 rfl,
   (c3_validate_corrected modA).1⟩

/-! ## Registry lemmas (C4, C5, C8) -/

/-- A freshly appended record makes its id present. -/
theorem hasId_append_self (m : List (String × Exports)) (id : String)
    (p : Exports) : hasId (m ++ [(id, p)]) id = true := by
  simp [hasId, List.any_append]

/-- Appending a record for an id adds one to that id's record count. -/
theorem countId_append_self (m : List (String × Exports)) (id : String)
    (p : Exports) : countId (m ++ [(id, p)]) id = countId m id + 1 := by
  simp [countId, List.countP_append]

/-- Characterization of a successful `initPlugin` run: the plugin is
appended to the registry, its namespace is mounted exactly when it
registered a route, its init call is recorded, and its exit hook is
collected when exported. -/
theorem initPlugin_success_eq (p : Exports) (st : LoadState) (id : String)
    (ib : InitBehavior) (h1 : validatePhase p = .passed id ib)
    (hdup : hasId st.loadedPlugins id = false) (hth : ib.throws = none) :
    initPlugin p st =
      ({ loadedPlugins := st.loadedPlugins ++ [(id, p)]
       , mounted :=
           if 0 < ib.routes then st.mounted ++ ["/api/plugins/" ++ id]
           else st.mounted
       , initCalls := st.initCalls ++ [ib.tag]
       , exitHooks :=
           match effExit p with
           | .vfunc _ eb => st.exitHooks ++ [eb]
           | _ => st.exitHooks
       , log := st.log }, .ok true) := by
  unfold initPlugin
  simp only [h1, hdup, hth, Bool.false_eq_true, if_false]
  by_cases hroutes : 0 < ib.routes <;> cases hexit : effExit p <;>
    simp [hroutes, hexit]

/-- An `initPlugin` run reporting success implies the id was fresh and the
init did not throw. -/
theorem initPlugin_ok_true_inv (p : Exports) (st : LoadState) (id : String)
    (ib : InitBehavior) (h1 : validatePhase p = .passed id ib)
    (hrun : (initPlugin p st).2 = .ok true) :
    hasId st.loadedPlugins id = false ∧ ib.throws = none := by
  unfold initPlugin at hrun
  simp only [h1] at hrun
  cases hdup : hasId st.loadedPlugins id with
  | true => simp [hdup] at hrun
  | false =>
    refine ⟨rfl, ?_⟩
    cases hth : ib.throws with
    | some e => simp [hdup, hth] at hrun
    | none => rfl

/-- Characterization of `initPlugin` when the accepted init throws: the
call is recorded, the error propagates, and no other state changes. -/
theorem initPlugin_throw_eq (p : Exports) (st : LoadState) (id : String)
    (ib : InitBehavior) (e : Err) (h1 : validatePhase p = .passed id ib)
    (hdup : hasId st.loadedPlugins id = false) (hth : ib.throws = some e) :
    initPlugin p st
      = ({ st with initCalls := st.initCalls ++ [ib.tag] }, .error e) := by
  unfold initPlugin
  simp only [h1, hdup, hth, Bool.false_eq_true, if_false]

/-- C4.  When two modules declare the same id and the first registers
successfully, the second attempt is rejected as a duplicate — appending
only the duplicate-id log entry, leaving the registry and the recorded
init calls untouched (its init is never invoked) — and the registry
retains exactly one record for that id. -/
theorem c4_duplicate_id (p1 p2 : Exports) (st st1 : LoadState) (id : String)
    (ib1 ib2 : InitBehavior)
    (h0 : countId st.loadedPlugins id = 0)
    (h1 : validatePhase p1 = .passed id ib1)
    (h2 : validatePhase p2 = .passed id ib2)
    (hrun : initPlugin p1 st = (st1, .ok true)) :
    initPlugin p2 st1
        = ({ st1 with log := st1.log ++ [.duplicateId id] }, .ok false) ∧
    countId st1.loadedPlugins id = 1 := by
  obtain ⟨hdup1, hth1⟩ :=
    initPlugin_ok_true_inv p1 st id ib1 h1 (by rw [hrun])
  have heq := initPlugin_success_eq p1 st id ib1 h1 hdup1 hth1
  rw [hrun] at heq
  have hst1 := congrArg Prod.fst heq
  simp only at hst1
  have hloaded : st1.loadedPlugins = st.loadedPlugins ++ [(id, p1)] := by
    rw [hst1]
  have hdup2 : hasId st1.loadedPlugins id = true := by
    rw [hloaded]; exact hasId_append_self _ _ _
  constructor
  · unfold initPlugin
    simp only [h2, hdup2, if_true]
  · rw [hloaded, countId_append_self, h0]

/-- C4 (witness): two concrete modules both declaring id `a`. -/
theorem c4_witness :
    initPlugin modB (initPlugin modA emptyState).1
        = ({ (initPlugin modA emptyState).1 with
             log := (initPlugin modA emptyState).1.log ++ [.duplicateId "a"] },
           .ok false) ∧
    countId (initPlugin modA emptyState).1.loadedPlugins "a" = 1 :=
  c4_duplicate_id modA modB emptyState (initPlugin modA emptyState).1 "a"
    ⟨1, none, 0⟩ ⟨2, none, 1⟩ rfl rfl rfl rfl

/-- C5.  A candidate whose accepted init throws is not registered: the
load reports failure, and the registry, the mounted namespaces, and the
collected exit hooks are all unchanged; the loop then proceeds to the next
candidate. -/
theorem c5_init_throw (p : Exports) (st : LoadState) (id : String)
    (ib : InitBehavior) (e : Err) (path : String) (fb : FileBehavior)
    (h1 : validatePhase p = .passed id ib)
    (hth : ib.throws = some e)
    (hdup : hasId st.loadedPlugins id = false)
    (himp : fb.imp = .ok p) :
    (loadFromFile path fb st).2 = false ∧
    (loadFromFile path fb st).1.loadedPlugins = st.loadedPlugins ∧
    (loadFromFile path fb st).1.mounted = st.mounted ∧
    (loadFromFile path fb st).1.exitHooks = st.exitHooks ∧
    (∀ rootPath nm fb2 es st0,
        loadEntries rootPath ((nm, Node.file fb2) :: es) st0
          = loadEntries rootPath es (loadEntry rootPath (nm, Node.file fb2) st0)) := by
  have hstep := initPlugin_throw_eq p
    { st with log := st.log ++ [.initializingFrom path] } id ib e h1 hdup hth
  unfold loadFromFile
  simp only [himp, hstep]
  exact ⟨trivial, trivial, trivial, trivial, fun _ _ _ _ _ => rfl⟩

/-- C5 (witness): a concrete module whose init throws. -/
theorem c5_witness :
    (loadFromFile "t.js" ⟨true, .ok modT⟩ emptyState).2 = false ∧
    (loadFromFile "t.js" ⟨true, .ok modT⟩ emptyState).1.loadedPlugins
        = emptyState.loadedPlugins ∧
    (loadFromFile "t.js" ⟨true, .ok modT⟩ emptyState).1.mounted
        = emptyState.mounted ∧
    (loadFromFile "t.js" ⟨true, .ok modT⟩ emptyState).1.exitHooks
        = emptyState.exitHooks ∧
    (∀ rootPath nm fb2 es st0,
        loadEntries rootPath ((nm, Node.file fb2) :: es) st0
          = loadEntries rootPath es (loadEntry rootPath (nm, Node.file fb2) st0)) :=
  c5_init_throw modT emptyState "t" ⟨5, some (.user 9), 0⟩ (.user 9) "t.js"
    ⟨true, .ok modT⟩ rfl rfl rfl rfl

/-- C8.  A successfully initialized extension is registered and reported
loaded, and its namespace `/api/plugins/[id]` is mounted exactly when it
registered at least one route; with zero routes nothing is mounted but the
extension is still recorded. -/
theorem c8_mount_iff_routes (p : Exports) (st : LoadState) (id : String)
    (ib : InitBehavior)
    (h1 : validatePhase p = .passed id ib)
    (hth : ib.throws = none)
    (hdup : hasId st.loadedPlugins id = false) :
    (initPlugin p st).2 = .ok true ∧
    hasId (initPlugin p st).1.loadedPlugins id = true ∧
    ((initPlugin p st).1.mounted = st.mounted ++ ["/api/plugins/" ++ id]
        ↔ 0 < ib.routes) ∧
    (ib.routes = 0 → (initPlugin p st).1.mounted = st.mounted) := by
  have heq := initPlugin_success_eq p st id ib h1 hdup hth
  rw [heq]
  refine ⟨rfl, hasId_append_self _ _ _, ?_, ?_⟩
  · by_cases hr : 0 < ib.routes
    · simp [hr]
    · simp only [hr, if_false, iff_false]
      intro hcontra
      have hl := congrArg List.length hcontra
      simp at hl
  · intro h0
    simp [h0]

/-- C8 (witness): a concrete zero-route module is registered, reported
loaded, and mounts nothing. -/
theorem c8_witness :
    (initPlugin modA emptyState).2 = .ok true ∧
    hasId (initPlugin modA emptyState).1.loadedPlugins "a" = true ∧
    ((initPlugin modA emptyState).1.mounted
        = emptyState.mounted ++ ["/api/plugins/" ++ "a"] ↔ 0 < (0 : Nat)) ∧
    ((0 : Nat) = 0 → (initPlugin modA emptyState).1.mounted = emptyState.mounted) :=
  c8_mount_iff_routes modA emptyState "a" ⟨1, none, 0⟩ rfl rfl rfl

/-! ## Resolution precedence (C6) -/

/-- C6 (counterexample).  A directory whose manifest declares a `main`
file that exists (but whose import throws) and which also contains a
loadable `index.js`: contrary to the claim, the conventional index file is
loaded and registered — the code falls through to index probing whenever
the manifest-declared load fails, because it never checks the `main`
file's existence, only the outcome of loading it. -/
theorem c6_counterexample :
    c6Dir.pkg = some (.mainEntry "entry.js" ⟨true, .error (.user 1)⟩) ∧
    c6Dir.idxJs.present = true ∧
    (loadFromDirectory "d" c6Dir emptyState).loadedPlugins.map Prod.fst
        = ["idx"] ∧
    (loadFromDirectory "d" c6Dir emptyState).log
        = [.loadFailed "d/entry.js", .initializingFrom "d/index.js"] := by
  exact ⟨rfl, rfl, rfl, rfl⟩

/-- C6 (amended).  Resolution attempts the manifest-declared `main` file
first and commits to it when that load succeeds (no index file is then
probed); when the manifest attempt fails, the conventional entry names
`index.js`, `index.cjs`, `index.mjs` are probed in that fixed order, and
the first file that exists and loads successfully wins, an existing but
failing index file being passed over; a directory where nothing resolves
is skipped without raising an error. -/
theorem c6_resolution_amended (dirPath : String) (d : DirNode)
    (st : LoadState) :
    (∀ m fb, d.pkg = some (.mainEntry m fb) → d.entryCount ≠ 0 →
        (loadFromFile (dirPath ++ "/" ++ m) fb st).2 = true →
        loadFromDirectory dirPath d st
          = (loadFromFile (dirPath ++ "/" ++ m) fb st).1) ∧
    (∀ st1 nm fb rest, fb.present = true →
        (loadFromFile (dirPath ++ "/" ++ nm) fb st1).2 = true →
        probeIndex dirPath ((nm, fb) :: rest) st1
          = (loadFromFile (dirPath ++ "/" ++ nm) fb st1).1) ∧
    (∀ st1 nm fb rest, fb.present = true →
        (loadFromFile (dirPath ++ "/" ++ nm) fb st1).2 = false →
        probeIndex dirPath ((nm, fb) :: rest) st1
          = probeIndex dirPath rest (loadFromFile (dirPath ++ "/" ++ nm) fb st1).1) ∧
    (∀ st1 nm fb rest, fb.present = false →
        probeIndex dirPath ((nm, fb) :: rest) st1
          = probeIndex dirPath rest st1) ∧
    (d.entryCount = 0 → loadFromDirectory dirPath d st = st) := by
  refine ⟨?_, ?_, ?_, ?_, ?_⟩
  · intro m fb hpkg hcnt hsucc
    unfold loadFromDirectory
    rw [if_neg hcnt, hpkg]
    simp only [loadFromPackage]
    rcases hlf : loadFromFile (dirPath ++ "/" ++ m) fb st with ⟨st', b⟩
    rw [hlf] at hsucc
    simp only at hsucc
    subst hsucc
    simp
  · intro st1 nm fb rest hpres hsucc
    unfold probeIndex
    rw [hpres]
    rcases hlf : loadFromFile (dirPath ++ "/" ++ nm) fb st1 with ⟨st', b⟩
    rw [hlf] at hsucc
    simp only at hsucc
    subst hsucc
    simp
  · intro st1 nm fb rest hpres hfail
    rcases hlf : loadFromFile (dirPath ++ "/" ++ nm) fb st1 with ⟨st', b⟩
    rw [hlf] at hfail
    simp only at hfail
    subst hfail
    rw [probeIndex, hpres, hlf]
    simp
  · intro st1 nm fb rest hpres
    rw [probeIndex, hpres]
    simp
  · intro h0
    unfold loadFromDirectory
    rw [if_pos h0]

/-- C6 (witness): a concrete directory whose manifest entry loads
successfully is resolved to the manifest-declared file. -/
theorem c6_witness :
    loadFromDirectory "d" c6wDir emptyState
      = (loadFromFile ("d" ++ "/" ++ "entry.js") ⟨true, .ok modA⟩ emptyState).1 :=
  (c6_resolution_amended "d" c6wDir emptyState).1 "entry.js" ⟨true, .ok modA⟩
    rfl (by decide) rfl

/-! ## Update phase (C7, C10) -/

/-- C7.  For a tracked repository with a healthy collaborator: when the
commit range `(HEAD, upstream]` is empty no pull is performed and `HEAD`
stays put; when it is non-empty a pull is performed and `HEAD` advances to
the upstream commit. -/
theorem c7_update_range (r : Repo) (hok : r.failAt = none)
    (hrepo : r.isRepoChk = true) :
    (r.behind = 0 → updateOne r = { r with fetchCalled := true }) ∧
    (r.behind ≠ 0 →
        updateOne r
          = { r with
              fetchCalled := true
              pullCalled := true
              head := r.upstream
              behind := 0 }) := by
  unfold updateOne
  rw [hok, hrepo]
  constructor
  · intro h0
    simp [h0]
  · intro hne
    simp [hne]

/-- C7 (witness): a concrete repository two commits behind is pulled up to
its upstream commit. -/
theorem c7_witness :
    updateOne wRepo
      = { wRepo with
          fetchCalled := true
          pullCalled := true
          head := wRepo.upstream
          behind := 0 } :=
  (c7_update_range wRepo rfl rfl).2 (by decide)

/-! ## Disabled conditions (C9) -/

/-- C9.  With the feature flag off, `loadPlugins` returns the no-op
teardown with nothing loaded and its result does not depend on the
directory contents (the filesystem is never consulted); the same no-op
result is returned when the plugins directory is absent or empty. -/
theorem c9_disabled_noop :
    (∀ cfg rootPath root1 root2, cfg.enableServerPlugins = false →
        loadPlugins cfg root1 rootPath = (emptyState, []) ∧
        loadPlugins cfg root1 rootPath = loadPlugins cfg root2 rootPath) ∧
    (∀ cfg rootPath, loadPlugins cfg none rootPath = (emptyState, [])) ∧
    (∀ cfg rootPath fs, fs.entries = [] →
        loadPlugins cfg (some fs) rootPath = (emptyState, [])) := by
  refine ⟨?_, ?_, ?_⟩
  · intro cfg rootPath root1 root2 h
    constructor
    · unfold loadPlugins
      rw [h]
      rfl
    · unfold loadPlugins
      rw [h]
      rfl
  · intro cfg rootPath
    unfold loadPlugins
    cases h : cfg.enableServerPlugins <;> rfl
  · intro cfg rootPath fs hfs
    unfold loadPlugins
    cases h : cfg.enableServerPlugins <;> simp [hfs]

/-- C9 (witness): concrete disabled configurations return the no-op
teardown. -/
theorem c9_witness :
    (loadPlugins cfgOff (some hiddenFS) "plugins" = (emptyState, []) ∧
     loadPlugins cfgOff (some hiddenFS) "plugins"
        = loadPlugins cfgOff none "plugins") ∧
    loadPlugins cfgOn none "plugins" = (emptyState, []) ∧
    loadPlugins cfgOn (some ⟨[]⟩) "plugins" = (emptyState, []) :=
  ⟨c9_disabled_noop.1 cfgOff "plugins" (some hiddenFS) none rfl,
   c9_disabled_noop.2.1 cfgOn "plugins",
   c9_disabled_noop.2.2 cfgOn "plugins" ⟨[]⟩ rfl⟩

/-- C10.  A hidden (dot-prefixed) top-level entry is excluded from the
auto-update phase — `updatePlugins` leaves it untouched, so its repository
is never fetched or pulled — but the loading loop applies no such filter:
a dot-named directory entry is resolved and loaded exactly like any
other. -/
theorem c10_hidden_entries :
    (∀ au gi fs name node, (name, node) ∈ fs.entries →
        startsWithDot name = true →
        (name, node) ∈ (updatePlugins au gi fs).entries) ∧
    (∀ rootPath name d r st,
        loadEntry rootPath (name, Node.dir d r) st
          = loadFromDirectory (rootPath ++ "/" ++ name) d st) := by
  constructor
  · intro au gi fs name node hmem hdot
    unfold updatePlugins
    by_cases hau : (!au) = true
    · rw [if_pos hau]; exact hmem
    · rw [if_neg hau]
      by_cases hlen : (fs.entries.filter isUpdateTarget).length = 0
      · rw [if_pos hlen]; exact hmem
      · rw [if_neg hlen]
        by_cases hgit : (!gi) = true
        · rw [if_pos hgit]; exact hmem
        · rw [if_neg hgit]
          have hfix : (if isUpdateTarget (name, node)
              then updateEntry (name, node) else (name, node)) = (name, node) := by
            simp [isUpdateTarget, hdot]
          have hm := List.mem_map_of_mem
            (fun e => if isUpdateTarget e then updateEntry e else e) hmem
          simp only at hm
          rw [hfix] at hm
          exact hm
  · intro rootPath name d r st
    rfl

/-- C10 (witness): the concrete hidden directory entry survives the update
phase untouched (its repository never fetched or pulled) and is loaded by
the loading loop like any other directory. -/
theorem c10_witness :
    (".hidden", Node.dir hiddenDir wRepo)
        ∈ (updatePlugins true true hiddenFS).entries ∧
    loadEntry "plugins" (".hidden", Node.dir hiddenDir wRepo) emptyState
      = loadFromDirectory ("plugins" ++ "/" ++ ".hidden") hiddenDir emptyState :=
  ⟨c10_hidden_entries.1 true true hiddenFS ".hidden" (Node.dir hiddenDir wRepo)
      (List.mem_cons_self _ _) (by decide),
   c10_hidden_entries.2 "plugins" ".hidden" hiddenDir wRepo emptyState⟩

end PluginLoader
